import Mathlib

/-!
# Verification of the if-core arithmetic-evaluation engine and plugin pipeline

Shallow embedding of the source files of the `if-core` repository:

* `src/utils/helpers.ts` — the mapping helpers (`mapInputIfNeeded`,
  `mapConfigIfNeeded`, `mapOutputIfNeeded`) and the arithmetic helper
  (`parseArithmeticParameter`, `getParameterFromArithmeticExpression`,
  `evaluateArithmeticOutput`, `evaluateInput`, `evaluateConfig`,
  `isValidArithmeticExpression`, `evaluateArithmeticExpression`,
  `evaluateComplexExpression`, `isOperandOperator`, `evaluateOperand`,
  `evaluateSimpleArithmeticExpression`, `validateArithmeticExpression`,
  `evaluateExpression`, `validateExpressionFormat`);
* `src/utils/validations.ts` — `validate`, `prettifyErrorMessage`, `flattenPath`;
* `src/interfaces/index.ts` — `PluginFactory` / `execute`.

Modelling conventions:

* JavaScript numbers are modelled as exact rationals extended with the IEEE
  special values `NaN`, `Infinity` and `-Infinity` (`JsNum`).  The programs in
  question perform small-integer arithmetic, on which IEEE doubles are exact,
  so the rational model agrees with the source on every computation the claims
  exercise.  The signed zero `-0` is not modelled (no claim depends on it).
* JavaScript values stored in records are modelled by `JsVal` (number, string
  or `undefined`).
* Exceptions are modelled with `Except EvalError`; each constructor of
  `EvalError` corresponds to one error class of `src/utils/errors.ts`
  (plus `typeError`/`syntaxError` for engine-raised `TypeError`/`SyntaxError`
  and `fuelExhausted` for stack exhaustion of the unguarded recursion).
* `eval` applied to the joined infix strings produced by the helper is
  modelled by `jsEval`: a tokenizer and precedence evaluator for the
  arithmetic fragment (decimal literals, identifiers, `+ - * /`, unary signs)
  — "conventional arithmetic semantics" in the spec's words.  An identifier
  other than `Infinity`/`NaN` or a syntax error makes `jsEval` return `none`
  (the thrown `ReferenceError`/`SyntaxError`).
-/

/-- Euclid's algorithm with explicit fuel (the first argument strictly
decreases each round, so `m + 2` rounds always suffice); written this way so
that the kernel can evaluate it (`Nat.gcd` itself is defined by well-founded
recursion and does not reduce). -/
def natGcdF : Nat → Nat → Nat → Nat
  | 0, _, n => n
  | fuel + 1, m, n => if m = 0 then n else natGcdF fuel (n % m) m

/-- Greatest common divisor. -/
def natGcd (m n : Nat) : Nat := natGcdF (m + 2) m n

/-- An exact rational in lowest terms with positive denominator (every value
is built through `mkJsRat`, which normalizes). -/
structure JsRat where
  num : Int
  den : Nat
  deriving DecidableEq, Repr

/-- Build a normalized rational from a numerator and a positive
denominator. -/
def mkJsRat (n : Int) (d : Nat) : JsRat :=
  let g := natGcd n.natAbs d
  if g = 0 then ⟨0, 1⟩
  else ⟨n / (g : Int), d / g⟩

/-- Rational addition. -/
def JsRat.addR (a b : JsRat) : JsRat :=
  mkJsRat (a.num * (b.den : Int) + b.num * (a.den : Int)) (a.den * b.den)

/-- Rational negation. -/
def JsRat.negR (a : JsRat) : JsRat := ⟨-a.num, a.den⟩

/-- Rational multiplication. -/
def JsRat.mulR (a b : JsRat) : JsRat := mkJsRat (a.num * b.num) (a.den * b.den)

/-- Rational division (the divisor must be nonzero; all callers guard). -/
def JsRat.divR (a b : JsRat) : JsRat :=
  if b.num < 0 then mkJsRat (-(a.num * (b.den : Int))) (a.den * b.num.natAbs)
  else mkJsRat (a.num * (b.den : Int)) (a.den * b.num.natAbs)

/-- Zero test. -/
def JsRat.isZero (a : JsRat) : Bool := a.num = 0

/-- Positivity test. -/
def JsRat.isPos (a : JsRat) : Bool := 0 < a.num

/-- Negativity test. -/
def JsRat.isNeg (a : JsRat) : Bool := a.num < 0

/-- The rational of an integer. -/
def JsRat.ofInt (i : Int) : JsRat := ⟨i, 1⟩

/-- JavaScript number: an exact rational or one of the IEEE special values. -/
inductive JsNum where
  | fin (q : JsRat)
  | posInf
  | negInf
  | nan
  deriving DecidableEq, Repr

/-- The JavaScript number of an integer. -/
def jsInt (i : Int) : JsNum := .fin (JsRat.ofInt i)

namespace JsNum

/-- `isNaN` on a number. -/
def isNaN : JsNum → Bool
  | nan => true
  | _ => false

/-- `isFinite` on a number. -/
def isFinite : JsNum → Bool
  | fin _ => true
  | _ => false

/-- JavaScript `+` on numbers. -/
def add : JsNum → JsNum → JsNum
  | nan, _ => nan
  | _, nan => nan
  | fin a, fin b => fin (a.addR b)
  | posInf, negInf => nan
  | negInf, posInf => nan
  | posInf, _ => posInf
  | _, posInf => posInf
  | negInf, _ => negInf
  | _, negInf => negInf

/-- JavaScript unary `-` on numbers. -/
def neg : JsNum → JsNum
  | nan => nan
  | fin a => fin a.negR
  | posInf => negInf
  | negInf => posInf

/-- JavaScript binary `-` on numbers. -/
def sub (a b : JsNum) : JsNum := add a (neg b)

/-- JavaScript `*` on numbers (without `-0`). -/
def mul : JsNum → JsNum → JsNum
  | nan, _ => nan
  | _, nan => nan
  | fin a, fin b => fin (a.mulR b)
  | posInf, posInf => posInf
  | posInf, negInf => negInf
  | negInf, posInf => negInf
  | negInf, negInf => posInf
  | posInf, fin b => if b.isPos then posInf else if b.isNeg then negInf else nan
  | fin a, posInf => if a.isPos then posInf else if a.isNeg then negInf else nan
  | negInf, fin b => if b.isPos then negInf else if b.isNeg then posInf else nan
  | fin a, negInf => if a.isPos then negInf else if a.isNeg then posInf else nan

/-- JavaScript `/` on numbers (without `-0`): a nonzero finite dividend over a
zero divisor gives a signed infinity, `0/0` gives `NaN`. -/
def div : JsNum → JsNum → JsNum
  | nan, _ => nan
  | _, nan => nan
  | fin a, fin b =>
      if b.isZero then (if a.isPos then posInf else if a.isNeg then negInf else nan)
      else fin (a.divR b)
  | posInf, posInf => nan
  | posInf, negInf => nan
  | negInf, posInf => nan
  | negInf, negInf => nan
  | posInf, fin b => if b.isNeg then negInf else posInf
  | negInf, fin b => if b.isNeg then posInf else negInf
  | fin _, posInf => fin (JsRat.ofInt 0)
  | fin _, negInf => fin (JsRat.ofInt 0)

end JsNum

/-- A JavaScript value as stored in records and configurations. -/
inductive JsVal where
  | num (n : JsNum)
  | str (s : String)
  | undefVal
  deriving DecidableEq, Repr

namespace JsVal

/-- JavaScript truthiness: `undefined`, `""`, `0` and `NaN` are falsy. -/
def truthy : JsVal → Bool
  | undefVal => false
  | str s => s ≠ ""
  | num (.fin q) => ¬ q.isZero
  | num .nan => false
  | num _ => true

/-- JavaScript strict equality `===` (`NaN === NaN` is false). -/
def strictEq : JsVal → JsVal → Bool
  | num (.fin a), num (.fin b) => a = b
  | num .posInf, num .posInf => true
  | num .negInf, num .negInf => true
  | str a, str b => a = b
  | undefVal, undefVal => true
  | _, _ => false

end JsVal

/-- One error value per error class thrown by the source
(`src/utils/errors.ts`), plus the engine-raised `TypeError`/`SyntaxError` and
a marker for exhausting the (unbounded in the source) recursion depth. -/
inductive EvalError where
  | inputValidation (msg : String)
  | wrongArithmeticExpression (msg : String)
  | zeroDivision (msg : String)
  | typeError
  | syntaxError (expression : String)
  | fuelExhausted
  deriving DecidableEq, Repr

/-- Equality of `Except` results is decidable (used by the concrete
evaluations in the theorems below). -/
instance {ε α : Type} [DecidableEq ε] [DecidableEq α] : DecidableEq (Except ε α) := fun a b =>
  match a, b with
  | .ok x, .ok y =>
      if h : x = y then .isTrue (by rw [h]) else .isFalse (by intro e; cases e; exact h rfl)
  | .error x, .error y =>
      if h : x = y then .isTrue (by rw [h]) else .isFalse (by intro e; cases e; exact h rfl)
  | .ok _, .error _ => .isFalse (by intro e; cases e)
  | .error _, .ok _ => .isFalse (by intro e; cases e)

/-- Digit characters. -/
def isDigitChar (c : Char) : Bool := '0' ≤ c ∧ c ≤ '9'

/-- ASCII letters (the `[a-zA-Z]` class). -/
def isLetterChar (c : Char) : Bool := ('a' ≤ c ∧ c ≤ 'z') ∨ ('A' ≤ c ∧ c ≤ 'Z')

/-- JavaScript `\w` word characters. -/
def isWordChar (c : Char) : Bool := isLetterChar c ∨ isDigitChar c ∨ c = '_'

/-- The arithmetic-operator characters `* + - /`. -/
def isArithOpChar (c : Char) : Bool := c = '*' ∨ c = '+' ∨ c = '-' ∨ c = '/'

/-- Characters of the split class `[\+\-\*/&]` used by
`parseArithmeticParameter`. -/
def isSplitOpChar (c : Char) : Bool := isArithOpChar c ∨ c = '&'

/-- Whitespace (the `\s` class, restricted to the usual ASCII whitespace). -/
def isSpaceChar (c : Char) : Bool := c = ' ' ∨ c = '\t' ∨ c = '\n' ∨ c = '\r'

/-- `String.prototype.trim`, structurally (the library `String.trim` is
iterator-based and does not reduce in the kernel). -/
def jsTrim (s : String) : String :=
  ⟨((s.toList.dropWhile isSpaceChar).reverse.dropWhile isSpaceChar).reverse⟩

/-- `String.prototype.includes` for a single character. -/
def containsChar (s : String) (c : Char) : Bool := s.toList.any (fun x => x = c)

/-- Lower-casing, structurally (`String.prototype.toLowerCase` on the ASCII
range the messages use). -/
def strToLower (s : String) : String := ⟨s.toList.map Char.toLower⟩

/-- Digits of a natural number, as characters. -/
def natDigits (n : Nat) : List Char := (Nat.toDigits 10 n)

/-- Decimal representation of an integer. -/
def intToString (i : ℤ) : String :=
  if i < 0 then "-" ++ ⟨natDigits i.natAbs⟩ else ⟨natDigits i.natAbs⟩

/-- Decimal digits of the fraction `rem / den` (`0 ≤ rem < den`), with fuel.
Only used by `jsNumToString` on non-integers, which no claim exercises. -/
def fracDigits : Nat → Nat → Nat → List Char
  | 0, _, _ => []
  | fuel + 1, rem, den =>
      if rem = 0 then []
      else Nat.digitChar (rem * 10 / den) :: fracDigits fuel (rem * 10 % den) den

/-- `Number.prototype.toString` for the model: exact for integers (the only
values the claims exercise); non-integral rationals get their (finite-fuel)
decimal expansion. -/
def jsNumToString : JsNum → String
  | .nan => "NaN"
  | .posInf => "Infinity"
  | .negInf => "-Infinity"
  | .fin q =>
      if q.den = 1 then intToString q.num
      else
        (if q.num < 0 then "-" else "") ++ ⟨natDigits (q.num.natAbs / q.den)⟩ ++ "." ++
          ⟨fracDigits 20 (q.num.natAbs % q.den) q.den⟩

/-- JavaScript `String(v)` coercion. -/
def jsToString : JsVal → String
  | .num n => jsNumToString n
  | .str s => s
  | .undefVal => "undefined"

/-- Value of a list of decimal digit characters. -/
def digitsVal (cs : List Char) : ℕ :=
  cs.foldl (fun a c => a * 10 + (c.toNat - 48)) 0

/-- Magnitude of a decimal literal `digits`, `digits.digits`, `digits.` or
`.digits`; `none` when the characters are not such a literal. -/
def parseDecMag (cs : List Char) : Option JsRat :=
  let ds := cs.takeWhile isDigitChar
  let rest := cs.drop ds.length
  match rest with
  | [] => if ds.isEmpty then none else some (JsRat.ofInt (digitsVal ds))
  | '.' :: rest2 =>
      let fs := rest2.takeWhile isDigitChar
      if ¬ (rest2.drop fs.length).isEmpty then none
      else if ds.isEmpty ∧ fs.isEmpty then none
      else some (mkJsRat (digitsVal ds * 10 ^ fs.length + digitsVal fs) (10 ^ fs.length))
  | _ => none

/-- `Number(string)`: trims, empty means `0`, a signed decimal literal or
`Infinity` parses, anything else is `NaN` (hexadecimal and exponent forms are
outside the model; no claim exercises them). -/
def jsStringToNumber (s : String) : JsNum :=
  let cs := (jsTrim s).toList
  match cs with
  | [] => jsInt 0
  | _ =>
    let isNegSign : Bool := match cs with
      | '-' :: _ => true
      | _ => false
    let body : List Char := match cs with
      | '+' :: r => r
      | '-' :: r => r
      | r => r
    if body = "Infinity".toList then (if isNegSign then .negInf else .posInf)
    else match parseDecMag body with
      | some q => .fin (if isNegSign then q.negR else q)
      | none => .nan

/-- `Number(v)` coercion. -/
def jsToNumber : JsVal → JsNum
  | .num n => n
  | .undefVal => .nan
  | .str s => jsStringToNumber s

/-- Remove the first occurrence of a character (JavaScript
`s.replace('=', '')` with a one-character pattern). -/
def removeFirstChar (c : Char) : List Char → List Char
  | [] => []
  | x :: xs => if x = c then xs else x :: removeFirstChar c xs

/-- `s.replace('=', '')`. -/
def stripFirstEq (s : String) : String := ⟨removeFirstChar '=' s.toList⟩

/-- The single-quote character. -/
def quoteChar1 : Char := Char.ofNat 39

/-- The double-quote character. -/
def quoteChar2 : Char := Char.ofNat 34

/-- Quote characters (the `['"]` class). -/
def isQuoteChar (c : Char) : Bool := c = quoteChar1 ∨ c = quoteChar2

/-- `s.replace(/['"]/g, '')`: drop every quote character. -/
def stripAllQuotes (s : String) : String := ⟨s.toList.filter (fun c => ¬ isQuoteChar c)⟩

/-- First-occurrence substring replacement, for a non-empty pattern. -/
def replaceFirstAux (pat repl : List Char) : List Char → List Char
  | [] => []
  | c :: cs =>
      if pat.isPrefixOf (c :: cs) then repl ++ (c :: cs).drop pat.length
      else c :: replaceFirstAux pat repl cs

/-- JavaScript `s.replace(pat, repl)` with a string pattern: replaces the
first occurrence only (an empty pattern matches at the start). -/
def replaceFirstStr (s pat repl : String) : String :=
  if pat.isEmpty then repl ++ s
  else ⟨replaceFirstAux pat.toList repl.toList s.toList⟩

/-- Token of the arithmetic `eval` fragment: a number (identifiers `Infinity`,
`NaN` and `undefined` are resolved to their numeric reading at this stage) or
an operator character. -/
inductive EvalTok where
  | num (n : JsNum)
  | op (c : Char)
  deriving DecidableEq, Repr

/-- Tokenizer of the arithmetic `eval` fragment.  `none` models a thrown
`SyntaxError`/`ReferenceError` (unknown identifier, stray character). -/
def jsTokenizeF : Nat → List Char → Option (List EvalTok)
  | 0, _ => none
  | _, [] => some []
  | fuel + 1, c :: cs =>
      if isSpaceChar c then jsTokenizeF fuel cs
      else if isArithOpChar c then
        (jsTokenizeF fuel cs).map (fun ts => .op c :: ts)
      else if isDigitChar c ∨ c = '.' then
        let all := c :: cs
        let ds := all.takeWhile isDigitChar
        let rest1 := all.drop ds.length
        match rest1 with
        | '.' :: r2 =>
            let fs := r2.takeWhile isDigitChar
            if ds.isEmpty ∧ fs.isEmpty then none
            else
              (jsTokenizeF fuel (r2.drop fs.length)).map
                (fun ts =>
                  .num (.fin (mkJsRat (digitsVal ds * 10 ^ fs.length + digitsVal fs)
                    (10 ^ fs.length))) :: ts)
        | _ =>
            (jsTokenizeF fuel rest1).map (fun ts => .num (jsInt (digitsVal ds)) :: ts)
      else if isLetterChar c ∨ c = '_' then
        let ws := (c :: cs).takeWhile isWordChar
        let rest := (c :: cs).drop ws.length
        let w : String := ⟨ws⟩
        if w = "Infinity" then (jsTokenizeF fuel rest).map (fun ts => .num .posInf :: ts)
        else if w = "NaN" ∨ w = "undefined" then
          (jsTokenizeF fuel rest).map (fun ts => .num .nan :: ts)
        else none
      else none

/-- Parse a factor: unary signs applied to a numeric atom. -/
def parseFactorF : Nat → List EvalTok → Option (JsNum × List EvalTok)
  | 0, _ => none
  | fuel + 1, toks =>
      match toks with
      | .op c :: rest =>
          if c = '+' then parseFactorF fuel rest
          else if c = '-' then (parseFactorF fuel rest).map (fun vr => (vr.1.neg, vr.2))
          else none
      | .num n :: rest => some (n, rest)
      | [] => none

/-- Left-associative `* /` chain continuing from `acc`. -/
def parseTermLoopF : Nat → JsNum → List EvalTok → Option (JsNum × List EvalTok)
  | 0, _, _ => none
  | fuel + 1, acc, toks =>
      match toks with
      | .op c :: rest =>
          if c = '*' ∨ c = '/' then
            match parseFactorF fuel rest with
            | some (v, r) =>
                parseTermLoopF fuel (if c = '*' then acc.mul v else acc.div v) r
            | none => none
          else some (acc, toks)
      | _ => some (acc, toks)

/-- Parse a term: a factor followed by a `* /` chain. -/
def parseTermF (fuel : Nat) (toks : List EvalTok) : Option (JsNum × List EvalTok) :=
  match parseFactorF fuel toks with
  | some (v, r) => parseTermLoopF fuel v r
  | none => none

/-- Left-associative `+ -` chain continuing from `acc`. -/
def parseExprLoopF : Nat → JsNum → List EvalTok → Option (JsNum × List EvalTok)
  | 0, _, _ => none
  | fuel + 1, acc, toks =>
      match toks with
      | .op c :: rest =>
          if c = '+' ∨ c = '-' then
            match parseTermF fuel rest with
            | some (v, r) =>
                parseExprLoopF fuel (if c = '+' then acc.add v else acc.sub v) r
            | none => none
          else some (acc, toks)
      | _ => some (acc, toks)

/-- Parse a full expression: a term followed by a `+ -` chain. -/
def parseExprF (fuel : Nat) (toks : List EvalTok) : Option (JsNum × List EvalTok) :=
  match parseTermF fuel toks with
  | some (v, r) => parseExprLoopF fuel v r
  | none => none

/-- Model of `eval` on the arithmetic fragment the helper produces:
conventional infix arithmetic with `* /` binding tighter than `+ -`,
left-to-right at equal precedence, and unary signs.  `none` models a thrown
error (unknown identifier, malformed syntax). -/
def jsEval (s : String) : Option JsNum :=
  match jsTokenizeF (s.length + 1) s.toList with
  | none => none
  | some toks =>
      match parseExprF (toks.length + 2) toks with
      | some (v, []) => some v
      | _ => none

/-- A record (`PluginParams` / flat `ConfigParams`): field name to value, in
JavaScript property-insertion order. -/
abbrev Rec : Type := List (String × JsVal)

/-- `key in obj`. -/
def hasKey (r : Rec) (k : String) : Bool := r.any (fun kv => kv.1 = k)

/-- `obj[key]` (an absent key reads as `undefined`). -/
def getVal (r : Rec) (k : String) : JsVal :=
  match r.find? (fun kv => kv.1 = k) with
  | some kv => kv.2
  | none => .undefVal

/-- `obj[key] = v`: overwrite in place when the key exists (keeping its
position), append otherwise. -/
def setKey (r : Rec) (k : String) (v : JsVal) : Rec :=
  if hasKey r k then r.map (fun kv => if kv.1 = k then (k, v) else kv)
  else r ++ [(k, v)]

/-- `delete obj[key]`. -/
def eraseKey (r : Rec) (k : String) : Rec := r.filter (fun kv => kv.1 ≠ k)

/-- Keys of a record, in order (`Object.keys`). -/
def recKeys (r : Rec) : List String := r.map (fun kv => kv.1)

/-- `{...a, ...b}`: keys of `a` (with `b`'s value where `b` overrides, at
`a`'s position) followed by `b`'s new keys. -/
def mergeRec (a b : Rec) : Rec :=
  a.map (fun kv => if hasKey b kv.1 then (kv.1, getVal b kv.1) else kv) ++
    b.filter (fun kv => ¬ hasKey a kv.1)

/-- A mapping table (`MappingParams`): internal name to external name. -/
abbrev Mapping : Type := List (String × String)

/-- `key in mapping`. -/
def mappingHasKey (m : Mapping) (k : String) : Bool := m.any (fun kv => kv.1 = k)

/-- `mapping[key]` (empty string for an absent key; callers guard with
`in` / `||`). -/
def mappingGet (m : Mapping) (k : String) : String :=
  match m.find? (fun kv => kv.1 = k) with
  | some kv => kv.2
  | none => ""

/-- `delete mapping[key]`. -/
def mappingErase (m : Mapping) (k : String) : Mapping := m.filter (fun kv => kv.1 ≠ k)

/-- The `regexForNumbers` test `/^=?[0-9+\-*\/\s]+$/` of
`getParameterFromArithmeticExpression`. -/
def matchesNumbersRegex (s : String) : Bool :=
  let cs := match s.toList with
    | '=' :: r => r
    | r => r
  ¬ cs.isEmpty ∧ cs.all (fun c => isDigitChar c ∨ isArithOpChar c ∨ isSpaceChar c)

/-- The `simpleExpressionRegex` test `/^\d+([*_\/+])\d+$/` of
`evaluateSimpleArithmeticExpression` (note: underscore, no minus, as in the
source). -/
def matchesSimpleExpression (s : String) : Bool :=
  let cs := s.toList
  let ds := cs.takeWhile isDigitChar
  match cs.drop ds.length with
  | c :: r =>
      if ¬ ds.isEmpty ∧ (c = '*' ∨ c = '_' ∨ c = '/' ∨ c = '+') then
        let es := r.takeWhile isDigitChar
        ¬ es.isEmpty ∧ (r.drop es.length).isEmpty
      else false
  | [] => false

/-- Greedy `(?:[-\/][a-zA-Z]+)*` continuation of a variable token (with
fuel; each round consumes at least two characters). -/
def varTokenExtF : Nat → List Char → List Char
  | 0, _ => []
  | fuel + 1, cs =>
      match cs with
      | c :: r =>
          if c = '-' ∨ c = '/' then
            let ls := r.takeWhile isLetterChar
            if ls.isEmpty then [] else c :: (ls ++ varTokenExtF fuel (r.drop ls.length))
          else []
      | [] => []

/-- Capture of `/["']?([a-zA-Z]+(?:[-\/][a-zA-Z]+)*)["']?/` when a match
starts at the head of `cs` (which must be a letter). -/
def varTokenAt (cs : List Char) : Option (List Char) :=
  let ls := cs.takeWhile isLetterChar
  if ls.isEmpty then none
  else some (ls ++ varTokenExtF cs.length (cs.drop ls.length))

/-- Whether the head character is a letter. -/
def headIsLetter : List Char → Bool
  | d :: _ => isLetterChar d
  | [] => false

/-- First match of `/["']?([a-zA-Z]+(?:[-\/][a-zA-Z]+)*)["']?/` over the
string: the capture group of the leftmost position where the pattern
matches. -/
def firstVarTokenAux : List Char → Option (List Char)
  | [] => none
  | c :: cs =>
      if isLetterChar c then varTokenAt (c :: cs)
      else
        if isQuoteChar c ∧ headIsLetter cs then varTokenAt cs
        else firstVarTokenAux cs

/-- First variable-shaped token of a string (`regex.exec` capture), if any. -/
def firstVarToken (s : String) : Option String :=
  (firstVarTokenAux s.toList).map (fun cs => ⟨cs⟩)

/-- Suffixes left after matching one operand
(`\d+(\.\d+)?` or `["']?[a-zA-Z0-9-]+["']?`) at the head of `cs`; all
backtracking choices of the regex engine are listed. -/
def arithOperandSuffixes (cs : List Char) : List (List Char) :=
  let altA :=
    let ds := cs.takeWhile isDigitChar
    if ds.isEmpty then []
    else
      let r1 := cs.drop ds.length
      let withFrac :=
        match r1 with
        | '.' :: r2 =>
            let fs := r2.takeWhile isDigitChar
            if fs.isEmpty then [] else [r2.drop fs.length]
        | _ => []
      r1 :: withFrac
  let bodies :=
    match cs with
    | c :: r => if isQuoteChar c then [cs, r] else [cs]
    | [] => [cs]
  let altB :=
    bodies.flatMap (fun body =>
      let run := body.takeWhile (fun c => isLetterChar c ∨ isDigitChar c ∨ c = '-')
      (List.range run.length).flatMap (fun k =>
        let suf := body.drop (k + 1)
        match suf with
        | c :: r => if isQuoteChar c then [suf, r] else [suf]
        | [] => [suf]))
  altA ++ altB

/-- Tail of the anchored arithmetic-expression regex: `(\s*[-+*\/]\s*
operand)*\s*$`, with backtracking over operand choices. -/
def matchArithTailF : Nat → List Char → Bool
  | 0, _ => false
  | fuel + 1, cs =>
      let cs1 := cs.dropWhile isSpaceChar
      match cs1 with
      | [] => true
      | c :: r =>
          if isArithOpChar c then
            let r1 := r.dropWhile isSpaceChar
            (arithOperandSuffixes r1).any (fun suf => matchArithTailF fuel suf)
          else false

/-- The `arithmeticExpression` regex of `isValidArithmeticExpression`:
`/^\s*(\d+(\.\d+)?|["']?[a-zA-Z0-9-]+["']?)(\s*[-+*\/]\s*(...))*\s*$/`. -/
def matchesArithRegex (s : String) : Bool :=
  let cs := s.toList.dropWhile isSpaceChar
  (arithOperandSuffixes cs).any (fun suf => matchArithTailF (cs.length + 1) suf)

/-- Tail of the numbers-only regex `(\s*[-+*\/]\s*\d+(\.\d+)?)*\s*$`. -/
def matchNumTailF : Nat → List Char → Bool
  | 0, _ => false
  | fuel + 1, cs =>
      let cs1 := cs.dropWhile isSpaceChar
      match cs1 with
      | [] => true
      | c :: r =>
          if isArithOpChar c then
            let r1 := r.dropWhile isSpaceChar
            let ds := r1.takeWhile isDigitChar
            if ds.isEmpty then false
            else
              let r2 := r1.drop ds.length
              let sufs :=
                match r2 with
                | '.' :: r3 =>
                    let fs := r3.takeWhile isDigitChar
                    if fs.isEmpty then [r2] else [r2, r3.drop fs.length]
                | _ => [r2]
              sufs.any (fun suf => matchNumTailF fuel suf)
          else false

/-- The `onlyNumberAndMathSymbols` regex
`/^\s*\d+(\.\d+)?(\s*[-+*\/]\s*\d+(\.\d+)?)*\s*$/` of
`containsOnlyNumbersAndOperators`. -/
def containsOnlyNumbersAndOperators (s : String) : Bool :=
  let cs := s.toList.dropWhile isSpaceChar
  let ds := cs.takeWhile isDigitChar
  if ds.isEmpty then false
  else
    let r1 := cs.drop ds.length
    let sufs :=
      match r1 with
      | '.' :: r2 =>
          let fs := r2.takeWhile isDigitChar
          if fs.isEmpty then [r1] else [r1, r2.drop fs.length]
      | _ => [r1]
    sufs.any (fun suf => matchNumTailF (cs.length + 1) suf)

/-- Whether the head character is a `\w` word character. -/
def headIsWordChar : List Char → Bool
  | d :: _ => isWordChar d
  | [] => false

/-- Strip trailing `-` characters (the `\b` backtracking at the end of
`\b\w[\w-]*\b`). -/
def dropTrailingDashes (cs : List Char) : List Char :=
  (cs.reverse.dropWhile (fun c => c = '-')).reverse

/-- Split at the next occurrence of the character `q`: the characters before
it and the characters after it. -/
def takeUntilChar (q : Char) : List Char → Option (List Char × List Char)
  | [] => none
  | c :: cs =>
      if c = q then some ([], cs)
      else (takeUntilChar q cs).map (fun p => (c :: p.1, p.2))

/-- Match `"[^"]+"` (resp. `'[^']+'`) after an opening quote `q`: the quoted
content (non-empty) and the rest. -/
def splitAtQuote (q : Char) (cs : List Char) : Option (List Char × List Char) :=
  match takeUntilChar q cs with
  | some (inner, rest) => if inner.isEmpty then none else some (inner, rest)
  | none => none

/-- Emit the pending unmatched piece (non-empty pieces survive
`filter(Boolean)`). -/
def flushPiece (acc : List Char) (out : List String) : List String :=
  if acc.isEmpty then out else (⟨acc.reverse⟩ : String) :: out

/-- `String.prototype.split` over the regex
`(\s*[\+\-\*\/&]\s*)|(\b\d+\b)|("[^"]+"|'[^']+')|(\b\w[\w-]*\b)` followed by
`filter(Boolean)`: the unmatched non-empty pieces and the matched group
contents, in order.  `acc` holds the pending piece (reversed). -/
def scanSplitF : Nat → List Char → List Char → List String
  | 0, acc, rest => flushPiece acc (if rest.isEmpty then [] else [⟨rest⟩])
  | _ + 1, acc, [] => flushPiece acc []
  | fuel + 1, acc, c :: cs =>
      if isSplitOpChar c then
        flushPiece acc (String.singleton c :: scanSplitF fuel [] (cs.dropWhile isSpaceChar))
      else if isSpaceChar c then
        let sp := (c :: cs).takeWhile isSpaceChar
        let rest := (c :: cs).drop sp.length
        match rest with
        | d :: ds =>
            if isSplitOpChar d then
              flushPiece acc (String.singleton d :: scanSplitF fuel [] (ds.dropWhile isSpaceChar))
            else scanSplitF fuel (sp.reverse ++ acc) rest
        | [] => scanSplitF fuel (sp.reverse ++ acc) []
      else if isDigitChar c then
        let all := c :: cs
        let ds := all.takeWhile isDigitChar
        let rest := all.drop ds.length
        if headIsWordChar rest then
          let run := all.takeWhile (fun x => isWordChar x ∨ x = '-')
          let stripped := dropTrailingDashes run
          flushPiece acc ((⟨stripped⟩ : String) :: scanSplitF fuel [] (all.drop stripped.length))
        else flushPiece acc ((⟨ds⟩ : String) :: scanSplitF fuel [] rest)
      else if isQuoteChar c then
        match splitAtQuote c cs with
        | some (inner, rest) =>
            flushPiece acc
              ((String.singleton c ++ (⟨inner⟩ : String) ++ String.singleton c) ::
                scanSplitF fuel [] rest)
        | none => scanSplitF fuel (c :: acc) cs
      else if isLetterChar c ∨ c = '_' then
        let all := c :: cs
        let run := all.takeWhile (fun x => isWordChar x ∨ x = '-')
        let stripped := dropTrailingDashes run
        flushPiece acc ((⟨stripped⟩ : String) :: scanSplitF fuel [] (all.drop stripped.length))
      else scanSplitF fuel (c :: acc) cs

/-- The per-operand cleanup `s => s.trim().replace(/^['"](.*)['"]$/, '$1')`. -/
def trimStripQuotes (s : String) : String :=
  let t := jsTrim s
  let cs := t.toList
  match cs with
  | c :: _ =>
      match cs.getLast? with
      | some l =>
          if cs.length ≥ 2 ∧ isQuoteChar c ∧ isQuoteChar l then ⟨(cs.drop 1).dropLast⟩
          else t
      | none => t
  | [] => t

/-- `parseArithmeticParameter` of the arithmetic helper: strip the first `=`,
trim, split on the arithmetic-symbol regex, keep the truthy parts, trim each
and strip surrounding quotes. -/
def parseArithmeticParameter (arithmeticParameter : String) : List String :=
  let s := jsTrim (stripFirstEq arithmeticParameter)
  (scanSplitF (s.length + 1) [] s.toList).map trimStripQuotes

/-- Message of the `ZeroDivisionArithmeticOperationError` thrown by
`evaluateExpression` on an `Infinity` result. -/
def zeroDivisionJoinedMsg (expression : String) : String :=
  "The input expression contains a division by zero: `" ++ expression ++ "`."

/-- `evaluateExpression` of the arithmetic helper: `eval` the string; an
`Infinity` value raises `ZeroDivisionArithmeticOperationError`; a `NaN` value
becomes `undefined`; a thrown evaluation error is caught and becomes
`undefined` (only the zero-division error is re-thrown). -/
def evaluateExpression (expression : String) : Except EvalError JsVal :=
  match jsEval expression with
  | none => .ok .undefVal
  | some v =>
      if v = .posInf then .error (.zeroDivision (zeroDivisionJoinedMsg expression))
      else if v.isNaN then .ok .undefVal
      else .ok (.num v)

/-- The `return match[1] / return arithmeticParameter` tail of
`getParameterFromArithmeticExpression` (after the closed-numeric branch did
not return): `match[1]` of the word regex when the argument is a string,
`undefined` when only `regexForNumbers` matched (its match has no capture
group), the argument itself otherwise. -/
def getParamFallback (arithmeticParameter : JsVal) (numMatch : Bool)
    (wordMatch : Option String) : JsVal :=
  match arithmeticParameter with
  | .str _ =>
      match wordMatch with
      | some w => .str w
      | none => if numMatch then .undefVal else arithmeticParameter
  | v => v

/-- `getParameterFromArithmeticExpression`: on a closed numeric string,
`eval` it (uncaught — a syntax error propagates) and return the value when
finite; otherwise return the first variable-shaped token, or the argument. -/
def getParameterFromArithmeticExpression (arithmeticParameter : JsVal) :
    Except EvalError JsVal :=
  let s := jsToString arithmeticParameter
  let numMatch := matchesNumbersRegex s
  let wordMatch := firstVarToken s
  if numMatch then
    match jsEval (stripFirstEq s) with
    | none => .error (.syntaxError (stripFirstEq s))
    | some n =>
        if ¬ n.isNaN ∧ n.isFinite then .ok (.num n)
        else .ok (getParamFallback arithmeticParameter numMatch wordMatch)
  else .ok (getParamFallback arithmeticParameter numMatch wordMatch)

/-- `isValidArithmeticExpression`: the extracted parameter differs from the
whole string and the `=`-stripped string matches the expression grammar. -/
def isValidArithmeticExpression (parameter : String) : Except EvalError Bool := do
  let checked ← getParameterFromArithmeticExpression (.str parameter)
  return (¬ (JsVal.str parameter).strictEq checked) ∧ matchesArithRegex (stripFirstEq parameter)

/-- `evaluateSimpleArithmeticExpression`: evaluate `NUMBER OP NUMBER`
strings (`OP` one of `* _ / +`), return anything else unchanged. -/
def evaluateSimpleArithmeticExpression (parameter : JsVal) : Except EvalError JsVal :=
  match parameter with
  | .str s =>
      if matchesSimpleExpression (stripFirstEq s) then evaluateExpression (stripFirstEq s)
      else .ok parameter
  | v => .ok v

/-- Message of the `InputValidationError` thrown by
`validateExpressionFormat`. -/
def invalidExpressionFormatMsg (parameterName : String) : String :=
  "The `" ++ parameterName ++
    "` contains an invalid arithmetic expression. It should start with `=` and include the symbols `*`, `+`, `-` and `/`."

/-- `validateExpressionFormat`: the `=` marker must agree with
parse-ability. -/
def validateExpressionFormat (parameterName : String) (value : String) :
    Except EvalError Unit := do
  let hasEqualSign := containsChar value '='
  let isValid ← isValidArithmeticExpression (stripFirstEq value)
  if (hasEqualSign ∧ ¬ isValid) ∨ (¬ hasEqualSign ∧ isValid) then
    .error (.inputValidation (invalidExpressionFormatMsg parameterName))
  else .ok ()

/-- `validateArithmeticExpression` of the arithmetic helper.  The optional
`type` argument of the source is omitted: both call sites in scope pass no
`type`, so the `type === 'number'` tail never runs. -/
def validateArithmeticExpression (parameterName : String) (value : JsVal) :
    Except EvalError JsVal :=
  match value with
  | .str s => do
      let sanitizedValue := stripFirstEq s
      let valid ← isValidArithmeticExpression sanitizedValue
      let early ← (do
        if valid then
          let ev ← evaluateExpression sanitizedValue
          let evaluatedParam := if ev.truthy then ev else value
          if ¬ (jsToNumber evaluatedParam).isNaN then pure (some evaluatedParam)
          else pure none
        else pure none : Except EvalError (Option JsVal))
      match early with
      | some r => pure r
      | none => do
          validateExpressionFormat parameterName s
          pure value
  | v => .ok v

/-- `isNotArithmeticExpression`: not a string, or neither `=`-marked nor a
closed numeric expression. -/
def isNotArithmeticExpression (expression : JsVal) : Bool :=
  match expression with
  | .str s => ¬ containsChar s '=' ∧ ¬ containsOnlyNumbersAndOperators s
  | _ => true

/-- `isBasicArithmetic`. -/
def isBasicArithmetic (expression : String) : Bool :=
  containsOnlyNumbersAndOperators expression

/-- Message of the `WrongArithmeticExpressionError` thrown by
`isOperandOperator`. -/
def wrongOperatorMsg (expression : String) : String :=
  "The operator in `" ++ expression ++
    "` should be one of these arithmetic operators: *, +, - or /."

/-- `isOperandOperator`: a single non-operator character is an error; a
single operator character answers true; anything longer answers false. -/
def isOperandOperator (operand expression : String) : Except EvalError Bool :=
  if operand.length = 1 ∧ ¬ operand.toList.any isArithOpChar then
    .error (.wrongArithmeticExpression (wrongOperatorMsg expression))
  else if operand.length = 1 then .ok true
  else .ok false

/-- Message of the `InputValidationError` for a variable absent from the
input (the spec's **MissingVariable** kind). -/
def missingVariableMsg (parameter : String) : String :=
  parameter ++ " is missing from the input array or has nullish value."

/-- Message of the `InputValidationError` for a non-numeric variable (the
spec's **NonNumericVariable** kind). -/
def nonNumericVariableMsg (parameter : String) : String :=
  "The value of the `" ++ parameter ++ "` parameter in the input array is not a number."

/-- Message of the `ZeroDivisionArithmeticOperationError` thrown by
`evaluateOperand`. -/
def zeroDivisionOperandMsg (parameterValue expression parameter : String) : String :=
  "Division by zero in `" ++ parameterValue ++ ": " ++ expression ++
    "` using input parameter `" ++ parameter ++ "`."

/-- `Array.prototype.join('')` over the collected operand values
(`undefined` joins as the empty string). -/
def joinVals (vs : List JsVal) : String :=
  String.join (vs.map (fun v => match v with | .undefVal => "" | v => jsToString v))

mutual

/-- `evaluateArithmeticExpression`: `timestamp` fields are returned from the
context unevaluated; non-expressions are returned unchanged; closed numeric
expressions are evaluated directly; everything else goes through the complex
evaluator.  The `Nat` argument is fuel for the source's unbounded mutual
recursion (the source has no cycle guard). -/
def evaluateArithmeticExpressionF : Nat → JsVal → String → List String → Rec →
    Except EvalError JsVal
  | 0, _, _, _, _ => .error .fuelExhausted
  | fuel + 1, expression, parameter, parametersToEvaluate, input =>
      if parameter = "timestamp" then .ok (getVal input parameter)
      else if isNotArithmeticExpression expression then .ok expression
      else
        match expression with
        | .str s =>
            let strippedEqualExpression := stripFirstEq s
            if isBasicArithmetic strippedEqualExpression then
              evaluateExpression strippedEqualExpression
            else
              evaluateComplexExpressionF fuel s parameter parametersToEvaluate input
        | v => .ok v

/-- The operand loop of `evaluateComplexExpression`: numbers and operators
are kept verbatim, other operands are resolved through `evaluateOperand`. -/
def evalOperandsF : Nat → List String → String → String → List String → Rec →
    List JsVal → Except EvalError (List JsVal)
  | 0, _, _, _, _, _, _ => .error .fuelExhausted
  | _ + 1, [], _, _, _, _, acc => .ok acc
  | fuel + 1, operand :: rest, expression, parameterValue, parametersToEvaluate,
      input, acc =>
      if operand ≠ "" ∧ ¬ (jsToNumber (.str operand)).isNaN then
        evalOperandsF fuel rest expression parameterValue parametersToEvaluate input
          (acc ++ [JsVal.str operand])
      else
        match isOperandOperator operand expression with
        | .error e => .error e
        | .ok true =>
            evalOperandsF fuel rest expression parameterValue parametersToEvaluate input
              (acc ++ [JsVal.str operand])
        | .ok false =>
            match evaluateOperandF fuel operand expression parameterValue
                parametersToEvaluate input with
            | .error e => .error e
            | .ok evaluatedOperand =>
                evalOperandsF fuel rest expression parameterValue parametersToEvaluate
                  input (acc ++ [evaluatedOperand])

/-- `evaluateComplexExpression`: parse into operands, resolve them, join and
evaluate; an empty operand list returns the expression unchanged. -/
def evaluateComplexExpressionF : Nat → String → String → List String → Rec →
    Except EvalError JsVal
  | 0, _, _, _, _ => .error .fuelExhausted
  | fuel + 1, expression, parameterValue, parametersToEvaluate, input =>
      match evalOperandsF fuel (parseArithmeticParameter expression) expression
          parameterValue parametersToEvaluate input [] with
      | .error e => .error e
      | .ok params =>
          if params.length ≠ 0 then evaluateExpression (joinVals params)
          else .ok (.str expression)

/-- `evaluateOperand`: the variable must exist in the input and read as a
number; a whole expression that is itself valid triggers recursive
evaluation of the variable's own value; a zero value with a `/` anywhere in
the expression raises the zero-division error; otherwise the value is
returned. -/
def evaluateOperandF : Nat → String → String → String → List String → Rec →
    Except EvalError JsVal
  | 0, _, _, _, _, _ => .error .fuelExhausted
  | fuel + 1, parameter, expression, parameterValue, parametersToEvaluate, input =>
      if ¬ hasKey input parameter then
        .error (.inputValidation (missingVariableMsg parameter))
      else if (jsToNumber (getVal input parameter)).isNaN then
        .error (.inputValidation (nonNumericVariableMsg parameter))
      else
        match isValidArithmeticExpression expression with
        | .error e => .error e
        | .ok isExpression =>
            if isExpression then
              evaluateArithmeticExpressionF fuel (getVal input parameter) parameter
                (parametersToEvaluate ++ [parameter]) input
            else if (getVal input parameter).strictEq (.num (jsInt 0)) ∧
                containsChar expression '/' then
              .error (.zeroDivision
                (zeroDivisionOperandMsg parameterValue expression parameter))
            else .ok (getVal input parameter)

end

/-- Call-stack budget used by the entry points; the claims' examples recurse
at most a handful of levels. -/
def defaultFuel : Nat := 100

/-- `evaluateInput`: fold every field of the (copied) input through the
expression evaluator, with the evolving copy as variable context. -/
def evaluateInputF (fuel : Nat) (input : Rec) : Except EvalError Rec :=
  input.foldlM
    (fun acc kv => do
      let v ← evaluateArithmeticExpressionF fuel kv.2 kv.1 [] acc
      pure (setKey acc kv.1 v))
    input

/-- `evaluateInput` at the default fuel. -/
def evaluateInput (input : Rec) : Except EvalError Rec :=
  evaluateInputF defaultFuel input

/-- `evaluateConfig`: for each allow-listed key of the (copied) config,
validate the expression shape, then evaluate it against the input. -/
def evaluateConfigF (fuel : Nat) (config input : Rec)
    (parametersToEvaluate : List String) : Except EvalError Rec :=
  (recKeys config).foldlM
    (fun acc parameter =>
      if parametersToEvaluate.contains parameter then do
        _ ← validateArithmeticExpression parameter (getVal acc parameter)
        let v ← evaluateArithmeticExpressionF fuel (getVal acc parameter) parameter
          parametersToEvaluate input
        pure (setKey acc parameter v)
      else pure acc)
    config

/-- `evaluateConfig` at the default fuel. -/
def evaluateConfig (config input : Rec) (parametersToEvaluate : List String) :
    Except EvalError Rec :=
  evaluateConfigF defaultFuel config input parametersToEvaluate

/-- Message of the `WrongArithmeticExpressionError` thrown by
`evaluateArithmeticOutput`. -/
def wrongOutputMsg (outputParameter : String) : String :=
  "The output parameter `" ++ outputParameter ++
    "` contains an invalid arithmetic expression. It should start with `=` and include the symbols `*`, `+`, `-` and `/`."

/-- `evaluateArithmeticOutput`.  The result pairs the returned record with
the state of the caller's `output` argument after the call: the source
executes `delete output[outputParameter]` on its argument before building
the fresh result, so in the expression branch the argument loses that key. -/
def evaluateArithmeticOutput (outputParameter : String) (output : Rec) :
    Except EvalError (Rec × Rec) := do
  let checkedOutputParameter ← getParameterFromArithmeticExpression (.str outputParameter)
  let isValidExpression ← isValidArithmeticExpression outputParameter
  let valueFromOutput := getVal output outputParameter
  if containsChar outputParameter '=' ∧ checkedOutputParameter.truthy ∧ isValidExpression then do
    let vstr ← match valueFromOutput with
      | .undefVal => Except.error EvalError.typeError
      | v => pure (jsToString v)
    let transformed :=
      stripAllQuotes
        (replaceFirstStr (stripFirstEq outputParameter) (jsToString checkedOutputParameter) vstr)
    let result ← evaluateExpression transformed
    let output' := eraseKey output outputParameter
    pure (setKey output' (jsToString checkedOutputParameter) result, output')
  else if ¬ (JsVal.str outputParameter).strictEq checkedOutputParameter then
    .error (.wrongArithmeticExpression (wrongOutputMsg outputParameter))
  else pure (output, output)

/-- `mapInputIfNeeded` (`src/utils/helpers.ts`): for each
`(key, value)` mapping entry whose `value` is a key of the record, copy the
original record's `value` field to `key` and delete `value` from the copy. -/
def mapInputIfNeeded (input : Rec) (mapping : Option Mapping) : Rec :=
  (mapping.getD []).foldl
    (fun newInput (kv : String × String) =>
      if hasKey newInput kv.2 then
        eraseKey (setKey newInput kv.1 (getVal input kv.2)) kv.2
      else newInput)
    input

/-- `mapOutputIfNeeded`: rename every key that is a mapping-table key. -/
def mapOutputIfNeeded (output : Rec) (mapping : Option Mapping) : Rec :=
  match mapping with
  | none => output
  | some m =>
      output.foldl
        (fun acc kv =>
          if mappingHasKey m kv.1 then setKey acc (mappingGet m kv.1) kv.2
          else setKey acc kv.1 kv.2)
        []

/-- Modelled from the spec: the body of `removeMappedInputParameter` is not
among the given source files — only its import in `src/interfaces/index.ts`
and its unit tests are.  Following §4.4 of the spec ("strips keys that were
consumed by a prior mapping pass") and the unit tests, it removes from the
record every key that is a mapping-table key (internal name), returning the
record unchanged when the mapping is absent; a missing record (an
out-of-range `inputs[index]`) yields an empty record. -/
def removeMappedInputParameter (input : Option Rec) (mapping : Option Mapping) : Rec :=
  match input with
  | none => []
  | some i =>
      match mapping with
      | none => i
      | some m => i.filter (fun kv => ¬ mappingHasKey m kv.1)

mutual

/-- A configuration value: a scalar leaf or a nested object.  Array
configurations are outside the model (no claim involves them). -/
inductive ConfigVal where
  | leaf : JsVal → ConfigVal
  | obj : ConfigFields → ConfigVal

/-- Fields of a configuration object, in insertion order. -/
inductive ConfigFields where
  | fnil : ConfigFields
  | fcons : String → ConfigVal → ConfigFields → ConfigFields

end

/-- Key membership in a configuration object. -/
def fieldsHasKey : ConfigFields → String → Bool
  | .fnil, _ => false
  | .fcons k _ rest, key => k = key ∨ fieldsHasKey rest key

/-- `result[mappedKey] = v`: overwrite in place, else append. -/
def setFieldC : ConfigFields → String → ConfigVal → ConfigFields
  | .fnil, k, v => .fcons k v .fnil
  | .fcons k' v' rest, k, v =>
      if k' = k then .fcons k v rest else .fcons k' v' (setFieldC rest k v)

/-- `mapping[key] || key`. -/
def mappedKeyFor (m : Mapping) (key : String) : String :=
  if mappingHasKey m key ∧ mappingGet m key ≠ "" then mappingGet m key else key

mutual

/-- Recursive body of `mapConfigIfNeeded` (`src/utils/helpers.ts`, the
version that consumes mapping entries) for an object config under a present
mapping; returns the new config together with the mapping-table state after
the call (this level's collected `parametersToRemove` are deleted once all
fields are processed). -/
def mapConfigValGo : ConfigVal → Mapping → Except EvalError (ConfigVal × Mapping)
  | .leaf v, m => .ok (.leaf v, m)
  | .obj fs, m =>
      match mapConfigFieldsGo fs m .fnil [] with
      | .error e => .error e
      | .ok (fs', m', rem) => .ok (.obj fs', rem.foldl mappingErase m')

/-- The `Object.entries(config).forEach` loop of `mapConfigIfNeeded`:
`acc` is the result object built so far, `rem` the `parametersToRemove`
collected so far; nested objects are mapped through a full recursive call
(which performs its own deletions before returning). -/
def mapConfigFieldsGo : ConfigFields → Mapping → ConfigFields → List String →
    Except EvalError (ConfigFields × Mapping × List String)
  | .fnil, m, acc, rem => .ok (acc, m, rem)
  | .fcons key value rest, m, acc, rem =>
      let mappedKey := mappedKeyFor m key
      match value with
      | .obj fs =>
          match mapConfigValGo (.obj fs) m with
          | .error e => .error e
          | .ok (v', m1) => mapConfigFieldsGo rest m1 (setFieldC acc mappedKey v') rem
      | .leaf v =>
          match v with
          | .str s =>
              if containsChar s '=' then
                match getParameterFromArithmeticExpression (.str s) with
                | .error e => .error e
                | .ok extracted =>
                    let ek := jsToString extracted
                    let value' :=
                      if mappingHasKey m ek then replaceFirstStr s ek (mappingGet m ek)
                      else s
                    mapConfigFieldsGo rest m
                      (setFieldC acc mappedKey (.leaf (.str value'))) (rem ++ [ek])
              else
                let v' :=
                  if mappingHasKey m s then JsVal.str (mappingGet m s) else JsVal.str s
                mapConfigFieldsGo rest m (setFieldC acc mappedKey (.leaf v')) (rem ++ [s])
          | w =>
              mapConfigFieldsGo rest m (setFieldC acc mappedKey (.leaf w))
                (rem ++ [jsToString w])

end

/-- `mapConfigIfNeeded`: identity when the mapping is falsy or the config is
not an object; otherwise the recursive key/value/expression-variable
renaming, whose consumed entries are deleted from the caller's mapping
table.  The pair's second component is the caller's mapping table after the
call. -/
def mapConfigIfNeeded (config : ConfigVal) (mapping : Option Mapping) :
    Except EvalError (ConfigVal × Option Mapping) :=
  match mapping with
  | none => .ok (config, none)
  | some m =>
      match config with
      | .leaf v => .ok (.leaf v, some m)
      | .obj fs => (mapConfigValGo (.obj fs) m).map (fun r => (r.1, some r.2))

/-- The field loop of `mapConfigIfNeeded` specialised to a flat (scalar-leaf)
configuration object, as used by the pipeline model (`execute`); same logic
as `mapConfigFieldsGo` without the nested-object case. -/
def mapConfigFlatGo : Rec → Mapping → Rec → List String →
    Except EvalError (Rec × List String)
  | [], _, acc, rem => .ok (acc, rem)
  | (key, v) :: rest, m, acc, rem =>
      let mappedKey := mappedKeyFor m key
      match v with
      | .str s =>
          if containsChar s '=' then
            match getParameterFromArithmeticExpression (.str s) with
            | .error e => .error e
            | .ok extracted =>
                let ek := jsToString extracted
                let value' :=
                  if mappingHasKey m ek then replaceFirstStr s ek (mappingGet m ek)
                  else s
                mapConfigFlatGo rest m (setKey acc mappedKey (.str value')) (rem ++ [ek])
          else
            let v' := if mappingHasKey m s then JsVal.str (mappingGet m s) else JsVal.str s
            mapConfigFlatGo rest m (setKey acc mappedKey v') (rem ++ [s])
      | w => mapConfigFlatGo rest m (setKey acc mappedKey w) (rem ++ [jsToString w])

/-- `mapConfigIfNeeded` on a flat configuration, with the post-call mapping
state. -/
def mapConfigFlat (config : Rec) (mapping : Option Mapping) :
    Except EvalError (Rec × Option Mapping) :=
  match mapping with
  | none => .ok (config, none)
  | some m =>
      match mapConfigFlatGo config m [] [] with
      | .error e => .error e
      | .ok (res, rem) => .ok (res, some (rem.foldl mappingErase m))

/-- `Array.prototype.map` with error propagation (the pipeline's `map`s over
callbacks that may throw). -/
def mapEM {α β : Type} (f : α → Except EvalError β) : List α → Except EvalError (List β)
  | [] => .ok []
  | a :: as =>
      match f a with
      | .error e => .error e
      | .ok b =>
          match mapEM f as with
          | .error e => .error e
          | .ok bs => .ok (b :: bs)

/-- A part of a zod issue path: an object key or an array index. -/
inductive PathPart where
  | str (s : String)
  | idx (n : Nat)
  deriving DecidableEq, Repr

/-- A nested issue inside a union error. -/
structure ZodSubIssue where
  code : String
  path : List PathPart
  message : String
  deriving DecidableEq, Repr

/-- One branch of a zod union error. -/
structure ZodUnionBranch where
  issues : List ZodSubIssue
  deriving DecidableEq, Repr

/-- A zod issue, as consumed by `prettifyErrorMessage`
(`src/utils/validations.ts`). -/
structure ZodIssue where
  code : String
  path : List PathPart
  message : String
  unionErrors : List ZodUnionBranch
  deriving DecidableEq, Repr

/-- `Array.prototype.join(sep)`. -/
def joinWithSep (sep : String) : List String → String
  | [] => ""
  | [x] => x
  | x :: xs => x ++ sep ++ joinWithSep sep xs

/-- `flattenPath`: numbers are rendered as `[n]`, then all parts are joined
with `.`. -/
def flattenPath (path : List PathPart) : String :=
  joinWithSep "."
    (path.map (fun p =>
      match p with
      | .str s => s
      | .idx n => "[" ++ toString n ++ "]"))

/-- Per-issue body of `prettifyErrorMessage`: union issues take the path and
message of the first branch's first nested issue; an empty flattened path
returns the bare message; otherwise the formatted message with the optional
index suffix and the issue code. -/
def prettifyIssue (issue : ZodIssue) (index : Option Nat) : Except EvalError String :=
  let indexErrorMessage :=
    match index with
    | some n => " at index " ++ toString n
    | none => ""
  let pm : Except EvalError (List PathPart × String) :=
    if issue.code = "invalid_union" then
      match issue.unionErrors with
      | [] => .error .typeError
      | b :: _ =>
          match b.issues with
          | [] => .error .typeError
          | i :: _ => .ok (i.path, i.message)
    else .ok (issue.path, issue.message)
  match pm with
  | .error e => .error e
  | .ok (path, message) =>
      let fullPath := flattenPath path
      if fullPath = "" then .ok message
      else
        .ok ("\"" ++ fullPath ++ "\" parameter is " ++ strToLower message ++
          indexErrorMessage ++ ". Error code: " ++ issue.code ++ ".")

/-- `prettifyErrorMessage` over the parsed issue list. -/
def prettifyErrorMessage (issues : List ZodIssue) (index : Option Nat) :
    Except EvalError (List String) :=
  mapEM (fun i => prettifyIssue i index) issues

/-- `validate` (`src/utils/validations.ts`): the external schema library's
`safeParse` outcome is taken as an argument (typed value or issue list); on
failure the prettified issue messages (joined with `,` by the `Error`
constructor's string coercion of the array) are thrown as an
`InputValidationError`. -/
def validate (validationResult : Except (List ZodIssue) Rec) (index : Option Nat) :
    Except EvalError Rec :=
  match validationResult with
  | .ok d => .ok d
  | .error issues =>
      match prettifyErrorMessage issues index with
      | .error e => .error e
      | .ok msgs => .error (.inputValidation (joinWithSep "," msgs))

/-- A plugin descriptor (`PluginFactoryParams`): the external implementation
callback (taking the processed inputs, the merged configuration and the
mapping), the optional config and input validators (modelled in their
function form; a schema validator behaves the same at this boundary: parsed
value or thrown error), and the optional arithmetic allow-list. -/
structure PluginDescriptor where
  implementation : List Rec → Rec → Option Mapping → Except EvalError (List Rec)
  configValidation : Option (Rec → Except EvalError Rec)
  inputValidation : Option (Rec → Rec → Nat → Except EvalError Rec)
  allowArithmeticExpressions : Option (List String)

/-- The `inputs.map` of the arithmetic block of `execute`: evaluate each
input; when the caller-supplied config is non-empty, (re)evaluate the mapped
config against the freshly evaluated input (the last row's evaluation
wins). -/
def evalInputsLoop (mappedConfig : Rec) (al : List String) (cfgNonempty : Bool) :
    List Rec → Option Rec → Except EvalError (List Rec × Option Rec)
  | [], ec => .ok ([], ec)
  | input :: rest, ec =>
      match evaluateInput input with
      | .error e => .error e
      | .ok ev =>
          match (if cfgNonempty then (evaluateConfig mappedConfig ev al).map some
                 else .ok ec : Except EvalError (Option Rec)) with
          | .error e => .error e
          | .ok ec1 =>
              match evalInputsLoop mappedConfig al cfgNonempty rest ec1 with
              | .error e => .error e
              | .ok (rest', ec2) => .ok (ev :: rest', ec2)

/-- The `inputs.forEach` of `execute` that evaluates a defaulted config
(caller config empty, validated config non-empty) against every input. -/
def secondConfigLoop (mappedConfig : Rec) (al : List String) :
    List Rec → Option Rec → Except EvalError (Option Rec)
  | [], ec => .ok ec
  | input :: rest, _ =>
      match evaluateConfig mappedConfig input al with
      | .error e => .error e
      | .ok c => secondConfigLoop mappedConfig al rest (some c)

/-- The free-output-field computation of `execute`:
`Object.keys(outputs[0]).filter(k => !Object.keys(inputs[0]).includes(k))[0]`.
Reading row 0 of an empty list is the engine's `TypeError` on
`Object.keys(undefined)`; with an empty key list the filter callback (and so
the read of `inputs[0]`) never runs. -/
def computeOutputParam (outputs inputs2 : List Rec) : Except EvalError (Option String) :=
  match outputs with
  | [] => .error .typeError
  | o0 :: _ =>
      let ks := recKeys o0
      if ks.isEmpty then .ok none
      else
        match inputs2 with
        | [] => .error .typeError
        | i0 :: _ => .ok ((ks.filter (fun k => ¬ (recKeys i0).contains k)).head?)

/-- Truthiness of the `outputParam` variable (`undefined` or a string). -/
def optStrTruthy : Option String → Bool
  | some s => s ≠ ""
  | none => false

/-- The final `outputs.map` of `execute`: evaluate the free output field when
arithmetic is enabled, then merge the mapping-stripped corresponding input
with the mapped output, one row per implementation output row. -/
def finalizeRows (isAr : Bool) (outputParam : Option String) (inputs2 : List Rec)
    (mapping : Option Mapping) : List (Nat × Rec) → Except EvalError (List Rec)
  | [] => .ok []
  | (index, output) :: rest =>
      match (if isAr && optStrTruthy outputParam then
               (evaluateArithmeticOutput (outputParam.getD "") output).map Prod.fst
             else .ok output : Except EvalError Rec) with
      | .error e => .error e
      | .ok resultOutput =>
          match finalizeRows isAr outputParam inputs2 mapping rest with
          | .error e => .error e
          | .ok rows =>
              .ok (mergeRec (removeMappedInputParameter (inputs2.get? index) mapping)
                    (mapOutputIfNeeded resultOutput mapping) :: rows)

/-- The config-validation stage of `execute`: the validator (if any) applied
to the mapped config, an absent validator passing the *original* caller
config through. -/
def configValidationStage (p : PluginDescriptor) (config mappedConfig : Rec) :
    Except EvalError Rec :=
  match p.configValidation with
  | none => pure config
  | some f => f mappedConfig

/-- The defaulted-config evaluation stage of `execute` (`inputs.forEach` over
`evaluateConfig` when the caller config is empty but the validated config is
not). -/
def evaluatedConfigStage (isArithmeticEnable : Bool) (config safeConfig mappedConfig : Rec)
    (al : List String) (inputs1 : List Rec) (evaluatedConfig1 : Option Rec) :
    Except EvalError (Option Rec) :=
  if isArithmeticEnable && config.length == 0 && safeConfig.length != 0 then
    secondConfigLoop mappedConfig al inputs1 evaluatedConfig1
  else pure evaluatedConfig1

/-- The expression-cleaning stage of `execute`: each validated config value
replaced by its extracted parameter when arithmetic is enabled. -/
def expressionCleanedStage (isArithmeticEnable : Bool) (safeConfig : Rec) :
    Except EvalError Rec :=
  if isArithmeticEnable then
    mapEM (fun (kv : String × JsVal) =>
      (getParameterFromArithmeticExpression kv.2).map (fun v => (kv.1, v))) safeConfig
  else pure ([] : Rec)

/-- The input-validation stage of `execute`: each input validated with the
expression-cleaned config (when non-empty) or the validated config and its
row index. -/
def safeInputsStage (p : PluginDescriptor) (expressionCleanedConfig safeConfig : Rec)
    (inputs1 : List Rec) : Except EvalError (List Rec) :=
  mapEM (fun (ix : Nat × Rec) =>
      match p.inputValidation with
      | none => Except.ok ix.2
      | some f =>
          f ix.2
            (if expressionCleanedConfig.length ≠ 0 then expressionCleanedConfig
             else safeConfig) ix.1)
    inputs1.enum

/-- The free-output-field stage of `execute`: computed only when arithmetic
is enabled. -/
def outputParamStage (isArithmeticEnable : Bool) (outputs inputs2 : List Rec) :
    Except EvalError (Option String) :=
  if isArithmeticEnable then computeOutputParam outputs inputs2 else pure none

/-- The stages of `execute` from config validation onwards (split into the
named stages above so each can be reasoned about in turn): validate the
config, (re)evaluate a defaulted config, derive the expression-cleaned
config, validate each input, apply the input mapping, invoke the
implementation, identify the free output field and build one merged row per
implementation output row. -/
def executeRest (p : PluginDescriptor) (isArithmeticEnable : Bool) (al : List String)
    (config mappedConfig : Rec) (mapping : Option Mapping) (inputs1 : List Rec)
    (evaluatedConfig1 : Option Rec) : Except EvalError (List Rec) := do
  let safeConfig ← configValidationStage p config mappedConfig
  let evaluatedConfig ← evaluatedConfigStage isArithmeticEnable config safeConfig
    mappedConfig al inputs1 evaluatedConfig1
  let expressionCleanedConfig ← expressionCleanedStage isArithmeticEnable safeConfig
  let safeInputs ← safeInputsStage p expressionCleanedConfig safeConfig inputs1
  let inputs2 := (safeInputs.zip inputs1).map
    (fun si => mapInputIfNeeded (mergeRec si.2 si.1) mapping)
  let outputs ← p.implementation inputs2 (mergeRec safeConfig (evaluatedConfig.getD [])) mapping
  let outputParam ← outputParamStage isArithmeticEnable outputs inputs2
  finalizeRows isArithmeticEnable outputParam inputs2 mapping outputs.enum

/-- `execute` of the plugin instance produced by `PluginFactory`
(`src/interfaces/index.ts`), for a flat configuration record: map the
config (mutating the mapping table), run the arithmetic pre-evaluation of
config and inputs when an allow-list is declared, then the remaining stages
(`executeRest`). -/
def execute (p : PluginDescriptor) (config : Rec) (mapping0 : Option Mapping)
    (inputs0 : List Rec) : Except EvalError (List Rec) := do
  let isArithmeticEnable := p.allowArithmeticExpressions.isSome
  let al := p.allowArithmeticExpressions.getD []
  let (mappedConfig0, mapping) ← mapConfigFlat config mapping0
  let (mappedConfig, inputs1, evaluatedConfig1) ←
    if isArithmeticEnable then do
      let mc ← mapEM (fun (kv : String × JsVal) =>
          (evaluateSimpleArithmeticExpression kv.2).map (fun v => (kv.1, v))) mappedConfig0
      let (ins, ec) ← evalInputsLoop mc al (config.length ≠ 0) inputs0 none
      pure (mc, ins, ec)
    else pure (mappedConfig0, inputs0, none)
  executeRest p isArithmeticEnable al config mappedConfig mapping inputs1 evaluatedConfig1

deriving instance DecidableEq for ConfigVal

/-- Claim C1 (corrected), counterexample to the universal part: the config
field `param1 = "=param3/10"` is allow-listed, its expression references the
context variable `param3` whose value is exactly `0`, and the expression
contains a `/` operation — yet evaluation raises nothing and returns `0`,
because the zero variable is the dividend, not the divisor (the pre-join
zero-divisor guard of `evaluateOperand` is unreachable on valid expressions:
the `isValidArithmeticExpression(expression)` branch returns first). -/
theorem c1_zero_dividend_no_error_counterexample :
    evaluateConfig [("param1", .str "=param3/10")] [("param3", .num (jsInt 0))]
      ["param1"] = .ok [("param1", .num (jsInt 0))] := by decide

/-- Claim C1 (corrected), amended: evaluating the allow-listed config
`{param1: "=10/param3"}` against input `{param3: 0}` raises
DivisionByZero (`ZeroDivisionArithmeticOperationError`) — but the error is
raised by `evaluateExpression` after the joined expression `10/0` has been
computed (its `Infinity` result is converted), not before the join. -/
theorem c1_division_by_zero_amended :
    evaluateConfig [("param1", .str "=10/param3")] [("param3", .num (jsInt 0))]
      ["param1"] = .error (.zeroDivision (zeroDivisionJoinedMsg "10/0")) := by decide

/-- Claim C2 (corrected), counterexample: the input field
`param1 = "=0-1/0"` evaluates to the IEEE value `-Infinity`, which appears in
the evaluated result — the `evaluatedValue === Infinity` check only converts
positive infinity. -/
theorem c2_negative_infinity_leaks_counterexample :
    evaluateInput [("param1", .str "=0-1/0")] = .ok [("param1", .num .negInf)] := by
  decide

/-- Claim C2 (corrected), amended: an evaluation yielding (positive)
`Infinity` raises DivisionByZero naming the joined expression; an evaluation
yielding `NaN` produces `undefined` ("no value"); consequently no `NaN` and
no positive `Infinity` ever appears in an `evaluateExpression` result —
negative `Infinity`, however, passes through (see the counterexample). -/
theorem c2_expression_result_conversion :
    (∀ e : String, jsEval e = some .posInf →
      evaluateExpression e = .error (.zeroDivision (zeroDivisionJoinedMsg e))) ∧
    (∀ e : String, jsEval e = some .nan → evaluateExpression e = .ok .undefVal) ∧
    (∀ (e : String) (v : JsVal), evaluateExpression e = .ok v →
      v ≠ .num .nan ∧ v ≠ .num .posInf) := by
  refine ⟨?_, ?_, ?_⟩
  · intro e h
    simp [evaluateExpression, h]
  · intro e h
    simp [evaluateExpression, h, JsNum.isNaN]
  · intro e v h
    unfold evaluateExpression at h
    cases hj : jsEval e with
    | none =>
        rw [hj] at h
        cases h
        exact ⟨(by intro hc; cases hc), (by intro hc; cases hc)⟩
    | some n =>
        rw [hj] at h
        by_cases hp : n = JsNum.posInf
        · simp [hp] at h
        · simp only [hp, if_false] at h
          by_cases hn : n.isNaN = true
          · simp [hn] at h
            cases h
            exact ⟨(by intro hc; cases hc), (by intro hc; cases hc)⟩
          · simp [hn] at h
            cases h
            constructor
            · intro hc
              cases hc
              exact hn rfl
            · intro hc
              cases hc
              exact hp rfl

/-- Witness for the amended C2 theorem at concrete inputs: `10/0` evaluates
to `Infinity` and is converted to DivisionByZero; `0/0` evaluates to `NaN`
and is converted to `undefined`. -/
theorem c2_expression_result_conversion_witness :
    evaluateExpression "10/0" = .error (.zeroDivision (zeroDivisionJoinedMsg "10/0")) ∧
    evaluateExpression "0/0" = .ok .undefVal :=
  ⟨c2_expression_result_conversion.1 "10/0" (by decide),
   c2_expression_result_conversion.2.1 "0/0" (by decide)⟩

/-- Claim C3 (corrected), counterexample: `evaluateArithmeticOutput`
applied to the record `{"=2*result": 10}` returns the fresh record
`{result: 20}`, but its caller's record has been mutated in place — the
`delete output[outputParameter]` of the source empties it (second pair
component, the argument's post-call state, is `{}`, not the original). -/
theorem c3_output_argument_mutated_counterexample :
    evaluateArithmeticOutput "=2*result" [("=2*result", .num (jsInt 10))] =
      .ok ([("result", .num (jsInt 20))], []) ∧
    ([] : Rec) ≠ [("=2*result", JsVal.num (jsInt 10))] := by
  constructor <;> decide

/-- Claim C3 (corrected), amended: `evaluateInput` and `evaluateConfig` copy
their argument (`Object.assign({}, ·)`) and only write to the copy, so the
caller's record is untouched; `evaluateArithmeticOutput` however mutates its
argument exactly when it takes the expression branch: after the call the
argument is either unchanged or has lost the evaluated output-parameter key
(and in the non-expression branch, as the concrete conjunct shows, it is
returned unchanged). -/
theorem c3_argument_mutation_scope :
    (∀ (p : String) (out : Rec) (res : Rec × Rec),
      evaluateArithmeticOutput p out = .ok res →
      res.2 = out ∨ res.2 = eraseKey out p) ∧
    evaluateArithmeticOutput "abc" [("abc", .num (jsInt 5))] =
      .ok ([("abc", .num (jsInt 5))], [("abc", .num (jsInt 5))]) := by
  constructor
  · intro p out res h
    unfold evaluateArithmeticOutput at h
    simp only [bind, Except.bind, pure, Except.pure] at h
    repeat' split at h
    all_goals first
      | (cases h; exact Or.inr rfl)
      | (cases h; exact Or.inl rfl)
      | cases h
  · decide

/-- Witness for the amended C3 theorem at the concrete expression-branch
input: the post-call argument state `{}` is the original record with the
`"=2*result"` key erased. -/
theorem c3_argument_mutation_scope_witness :
    evaluateArithmeticOutput "=2*result" [("=2*result", .num (jsInt 10))] =
      .ok ([("result", .num (jsInt 20))], []) ∧
    (([] : Rec) = [("=2*result", JsVal.num (jsInt 10))] ∨
     ([] : Rec) = eraseKey [("=2*result", JsVal.num (jsInt 10))] "=2*result") :=
  ⟨by decide,
   c3_argument_mutation_scope.1 "=2*result" [("=2*result", .num (jsInt 10))]
     ([("result", .num (jsInt 20))], []) (by decide)⟩

/-- Claim C4 (corrected), counterexample: the mapping entry
`carbon ↦ carbon-output` is applied — the config key `carbon` is renamed —
yet the entry is *not* deleted from the mapping table (the returned table is
the original one: `parametersToRemove` collects leaf values and extracted
expression variables, never the renamed keys). Since the table is unchanged,
a second call with the same table performs the same rename again instead of
leaving the field unmapped. -/
theorem c4_key_rename_not_consumed_counterexample :
    mapConfigIfNeeded (.obj (.fcons "carbon" (.leaf (.num (jsInt 5))) .fnil))
        (some [("carbon", "carbon-output")]) =
      .ok (.obj (.fcons "carbon-output" (.leaf (.num (jsInt 5))) .fnil),
        some [("carbon", "carbon-output")]) ∧
    ConfigVal.obj (.fcons "carbon-output" (.leaf (.num (jsInt 5))) .fnil) ≠
      ConfigVal.obj (.fcons "carbon" (.leaf (.num (jsInt 5))) .fnil) := by
  constructor <;> decide

/-- Claim C4 (corrected), amended: `mapConfigIfNeeded` deletes from the
caller's mapping table the entries it consumes through *values* — the
extracted variable of an expression-shaped leaf (shown here: mapping
`carbon ↦ c-out` rewrites `"=carbon*2"` to `"=c-out*2"` and the `carbon`
entry is deleted, so the second call with the same table leaves the field
unmapped) — but not the entries applied as key renames (see the
counterexample), so only value- and expression-consumed fields are
"unmapped on the second call". -/
theorem c4_mapping_value_consumption_amended :
    mapConfigIfNeeded (.obj (.fcons "param1" (.leaf (.str "=carbon*2")) .fnil))
        (some [("carbon", "c-out"), ("old", "new")]) =
      .ok (.obj (.fcons "param1" (.leaf (.str "=c-out*2")) .fnil),
        some [("old", "new")]) ∧
    mapConfigIfNeeded (.obj (.fcons "param1" (.leaf (.str "=carbon*2")) .fnil))
        (some [("old", "new")]) =
      .ok (.obj (.fcons "param1" (.leaf (.str "=carbon*2")) .fnil),
        some [("old", "new")]) := by
  constructor <;> decide

/-- Claim C6 (confirmed): during complex-expression evaluation an identifier
operand absent from the variable context raises the MissingVariable error
(the `InputValidationError` whose message is `missingVariableMsg`), an
identifier operand whose context value cannot be read as a number raises the
NonNumericVariable error (message `nonNumericVariableMsg`), and in
particular evaluating the input `{param1: "=param2*2", param2: "mock-param"}`
raises NonNumericVariable for `param2`. -/
theorem c6_operand_error_kinds :
    (∀ (fuel : Nat) (parameter expression parameterValue : String)
        (pte : List String) (input : Rec), hasKey input parameter = false →
      evaluateOperandF (fuel + 1) parameter expression parameterValue pte input =
        .error (.inputValidation (missingVariableMsg parameter))) ∧
    (∀ (fuel : Nat) (parameter expression parameterValue : String)
        (pte : List String) (input : Rec), hasKey input parameter = true →
      (jsToNumber (getVal input parameter)).isNaN = true →
      evaluateOperandF (fuel + 1) parameter expression parameterValue pte input =
        .error (.inputValidation (nonNumericVariableMsg parameter))) ∧
    evaluateInput [("param1", .str "=param2*2"), ("param2", .str "mock-param")] =
      .error (.inputValidation (nonNumericVariableMsg "param2")) := by
  refine ⟨?_, ?_, by decide⟩
  · intro fuel parameter expression parameterValue pte input h
    simp [evaluateOperandF, h]
  · intro fuel parameter expression parameterValue pte input h1 h2
    simp [evaluateOperandF, h1, h2]

/-- Witness for the C6 theorem at concrete inputs: an empty context misses
`x` (MissingVariable), and a context binding `y` to `"mock-param"` cannot
read it as a number (NonNumericVariable). -/
theorem c6_operand_error_kinds_witness :
    (hasKey [] "x" = false ∧
      evaluateOperandF 1 "x" "=x*2" "p" [] [] =
        .error (.inputValidation (missingVariableMsg "x"))) ∧
    (hasKey [("y", JsVal.str "mock-param")] "y" = true ∧
      (jsToNumber (getVal [("y", JsVal.str "mock-param")] "y")).isNaN = true ∧
      evaluateOperandF 1 "y" "=y*2" "p" [] [("y", JsVal.str "mock-param")] =
        .error (.inputValidation (nonNumericVariableMsg "y"))) :=
  ⟨⟨by decide, c6_operand_error_kinds.1 0 "x" "=x*2" "p" [] [] (by decide)⟩,
   ⟨by decide, by decide,
    c6_operand_error_kinds.2.1 0 "y" "=y*2" "p" [] [("y", JsVal.str "mock-param")]
      (by decide) (by decide)⟩⟩

/-- Claim C7 (code_bug): evaluating the code at the failing input — the
source's `mapInputIfNeeded` copies the external field `carbon-product` to
`carbon` and then *deletes* `carbon-product` from the result, returning
`{carbon: 9}`; the spec and the repository's own unit test expect
`{carbon: 9, "carbon-product": 9}` (both keys retained). -/
theorem c7_map_input_deletes_external_key :
    mapInputIfNeeded [("carbon-product", .num (jsInt 9))]
        (some [("carbon", "carbon-product")]) =
      [("carbon", .num (jsInt 9))] := by decide

/-- Claim C8 (corrected), counterexample: for the issue path
`['foo','bar',2]` the code renders `foo.bar.[2]` — `flattenPath` maps the
numeric part to `[2]` and then joins *all* parts with `.` — so the claimed
dot/bracket notation `foo.bar[2]` appears nowhere in the message. -/
theorem c8_path_rendering_counterexample :
    prettifyIssue ⟨"custom", [.str "foo", .str "bar", .idx 2], "Required", []⟩ none =
      .ok "\"foo.bar.[2]\" parameter is required. Error code: custom." ∧
    ¬ List.IsInfix "foo.bar[2]".toList
        "\"foo.bar.[2]\" parameter is required. Error code: custom.".toList := by
  constructor <;> decide

/-- Claim C8 (corrected), amended: each issue message consists of the
flattened path (numeric parts rendered `[N]`, ALL parts dot-joined — e.g.
`foo.bar.[2]`) wrapped in double quotes and followed by ` parameter is `,
then the lower-cased issue message, the ` at index N` suffix exactly when
an index is given, and `. Error code: ` plus the issue code; issues with an
empty flattened path return the bare message unchanged (no lower-casing,
no index suffix, no error code). -/
theorem c8_message_format_amended :
    (∀ (issue : ZodIssue) (idx : Option Nat), issue.code ≠ "invalid_union" →
      flattenPath issue.path = "" → prettifyIssue issue idx = .ok issue.message) ∧
    (∀ (issue : ZodIssue) (idx : Option Nat), issue.code ≠ "invalid_union" →
      flattenPath issue.path ≠ "" →
      prettifyIssue issue idx =
        .ok ("\"" ++ flattenPath issue.path ++ "\" parameter is " ++
          strToLower issue.message ++
          (match idx with | some n => " at index " ++ toString n | none => "") ++
          ". Error code: " ++ issue.code ++ ".")) ∧
    (∀ (s1 s2 : String) (n : Nat),
      flattenPath [.str s1, .str s2, .idx n] =
        (s1 ++ ".") ++ ((s2 ++ ".") ++ (("[" ++ toString n) ++ "]"))) := by
  refine ⟨?_, ?_, ?_⟩
  · intro issue idx hcode hpath
    simp [prettifyIssue, hcode, hpath]
  · intro issue idx hcode hpath
    simp [prettifyIssue, hcode, hpath]
  · intro s1 s2 n
    rfl

/-- Witness for the amended C8 theorem at a concrete issue with an index:
the full formatted message. -/
theorem c8_message_format_amended_witness :
    prettifyIssue ⟨"custom", [.str "foo", .str "bar", .idx 2], "Required", []⟩ (some 3) =
      .ok "\"foo.bar.[2]\" parameter is required at index 3. Error code: custom." := by
  rw [c8_message_format_amended.2.1
    ⟨"custom", [.str "foo", .str "bar", .idx 2], "Required", []⟩ (some 3)
    (by decide) (by decide)]
  decide

/-- Helper: a successful `mapEM` preserves list length. -/
theorem mapEM_length {α β : Type} (f : α → Except EvalError β) :
    ∀ (l : List α) (res : List β), mapEM f l = .ok res → res.length = l.length := by
  intro l
  induction l with
  | nil =>
      intro res h
      unfold mapEM at h
      cases h
      rfl
  | cons a as ih =>
      intro res h
      unfold mapEM at h
      cases hf : f a with
      | error e => rw [hf] at h; cases h
      | ok b =>
          rw [hf] at h
          cases hm : mapEM f as with
          | error e => rw [hm] at h; cases h
          | ok bs =>
              rw [hm] at h
              cases h
              simp [ih bs hm]

/-- Helper: the final row builder emits exactly one record per
implementation output row. -/
theorem finalizeRows_length (isAr : Bool) (op : Option String) (inputs2 : List Rec)
    (mapping : Option Mapping) :
    ∀ (l : List (Nat × Rec)) (res : List Rec),
      finalizeRows isAr op inputs2 mapping l = .ok res → res.length = l.length := by
  intro l
  induction l with
  | nil =>
      intro res h
      unfold finalizeRows at h
      cases h
      rfl
  | cons a rest ih =>
      intro res h
      obtain ⟨index, output⟩ := a
      unfold finalizeRows at h
      cases hro : (if isAr && optStrTruthy op then
          (evaluateArithmeticOutput (op.getD "") output).map Prod.fst
        else .ok output : Except EvalError Rec) with
      | error e => rw [hro] at h; cases h
      | ok ro =>
          rw [hro] at h
          cases hrest : finalizeRows isAr op inputs2 mapping rest with
          | error e => rw [hrest] at h; cases h
          | ok rows =>
              rw [hrest] at h
              cases h
              simp [ih rows hrest]

/-- Helper: the arithmetic input-evaluation loop preserves row count. -/
theorem evalInputsLoop_length (mc : Rec) (al : List String) (cne : Bool) :
    ∀ (l : List Rec) (ec : Option Rec) (res : List Rec × Option Rec),
      evalInputsLoop mc al cne l ec = .ok res → res.1.length = l.length := by
  intro l
  induction l with
  | nil =>
      intro ec res h
      unfold evalInputsLoop at h
      cases h
      rfl
  | cons a as ih =>
      intro ec res h
      unfold evalInputsLoop at h
      cases h1 : evaluateInput a with
      | error e => rw [h1] at h; cases h
      | ok ev =>
          rw [h1] at h
          dsimp only at h
          cases h2 : (if cne then (evaluateConfig mc ev al).map some
              else .ok ec : Except EvalError (Option Rec)) with
          | error e => rw [h2] at h; cases h
          | ok ec1 =>
              rw [h2] at h
              dsimp only at h
              cases h3 : evalInputsLoop mc al cne as ec1 with
              | error e => rw [h3] at h; cases h
              | ok pr =>
                  rw [h3] at h
                  obtain ⟨rest, ec2⟩ := pr
                  dsimp only at h
                  cases h
                  simp [ih ec1 (rest, ec2) h3]

/-- Helper: when the implementation preserves row count, the pipeline stages
from config validation onwards do too. -/
theorem executeRest_length
    (p : PluginDescriptor) (isAr : Bool) (al : List String) (config mappedConfig : Rec)
    (mapping : Option Mapping) (inputs1 : List Rec) (ec1 : Option Rec) (res : List Rec)
    (hImpl : ∀ rows cfg m out, p.implementation rows cfg m = .ok out →
      out.length = rows.length)
    (hRun : executeRest p isAr al config mappedConfig mapping inputs1 ec1 = .ok res) :
    res.length = inputs1.length := by
  unfold executeRest at hRun
  simp only [bind, Except.bind] at hRun
  cases hSC : configValidationStage p config mappedConfig with
  | error e => rw [hSC] at hRun; cases hRun
  | ok sc =>
  rw [hSC] at hRun
  dsimp only at hRun
  cases hEC : evaluatedConfigStage isAr config sc mappedConfig al inputs1 ec1 with
  | error e => rw [hEC] at hRun; cases hRun
  | ok ec =>
  rw [hEC] at hRun
  dsimp only at hRun
  cases hXC : expressionCleanedStage isAr sc with
  | error e => rw [hXC] at hRun; cases hRun
  | ok ecc =>
  rw [hXC] at hRun
  dsimp only at hRun
  cases hSI : safeInputsStage p ecc sc inputs1 with
  | error e => rw [hSI] at hRun; cases hRun
  | ok si =>
  rw [hSI] at hRun
  dsimp only at hRun
  have h1 : si.length = inputs1.length := by
    have := mapEM_length _ _ _ hSI
    simpa [List.enum_length] using this
  cases hOut : p.implementation
      ((si.zip inputs1).map (fun sj => mapInputIfNeeded (mergeRec sj.2 sj.1) mapping))
      (mergeRec sc (ec.getD [])) mapping with
  | error e => rw [hOut] at hRun; cases hRun
  | ok outs =>
  rw [hOut] at hRun
  dsimp only at hRun
  have h2 : outs.length = inputs1.length := by
    have := hImpl _ _ _ _ hOut
    simp only [List.length_map, List.length_zip, h1, Nat.min_self] at this
    exact this
  cases hOP : outputParamStage isAr outs
      ((si.zip inputs1).map (fun sj => mapInputIfNeeded (mergeRec sj.2 sj.1) mapping)) with
  | error e => rw [hOP] at hRun; cases hRun
  | ok op =>
  rw [hOP] at hRun
  dsimp only at hRun
  have h3 := finalizeRows_length _ _ _ _ _ _ hRun
  rw [List.enum_length] at h3
  rw [h3, h2]

/-- Claim C5 (corrected), counterexample: a descriptor whose implementation
returns the empty list completes `execute` without error on a one-row input
and returns zero rows — the returned list has one record per *implementation
output* row, not per input row. -/
theorem c5_dropped_row_counterexample :
    execute (⟨fun _ _ _ => .ok [], none, none, none⟩ : PluginDescriptor) [] none
        [[("x", .num (jsInt 1))]] = .ok [] ∧
    ([] : List Rec).length ≠ [[("x", JsVal.num (jsInt 1))]].length := by
  constructor <;> decide

/-- Claim C5 (corrected), amended: `execute` emits exactly one record per
implementation output row, so whenever the implementation returns exactly
one output row per input row, every `execute(inputs)` call that completes
without error returns exactly one record per input row, positionally aligned
(row `i` of the result is built from output row `i` and processed input row
`i`). -/
theorem c5_row_alignment_amended
    (p : PluginDescriptor) (config : Rec) (mapping0 : Option Mapping)
    (inputs : List Rec) (res : List Rec)
    (hImpl : ∀ rows cfg m out, p.implementation rows cfg m = .ok out →
      out.length = rows.length)
    (hRun : execute p config mapping0 inputs = .ok res) :
    res.length = inputs.length := by
  unfold execute at hRun
  simp only [bind, Except.bind] at hRun
  cases hM : mapConfigFlat config mapping0 with
  | error e => rw [hM] at hRun; cases hRun
  | ok pr =>
  obtain ⟨mc0, m'⟩ := pr
  rw [hM] at hRun
  dsimp only at hRun
  cases hAE : p.allowArithmeticExpressions with
  | none =>
      rw [hAE] at hRun
      simp only [Option.isSome_none, Bool.false_eq_true, if_false, Option.getD_none] at hRun
      exact executeRest_length p false [] config mc0 m' inputs none res hImpl hRun
  | some al =>
      rw [hAE] at hRun
      simp only [Option.isSome_some, Option.getD_some, if_true] at hRun
      cases hmc : mapEM (fun (kv : String × JsVal) =>
          (evaluateSimpleArithmeticExpression kv.2).map (fun v => (kv.1, v))) mc0 with
      | error e => rw [hmc] at hRun; cases hRun
      | ok mc1 =>
      rw [hmc] at hRun
      dsimp only at hRun
      cases hIL : evalInputsLoop mc1 al (decide (config.length ≠ 0)) inputs none with
      | error e => rw [hIL] at hRun; cases hRun
      | ok pr2 =>
      obtain ⟨ins1, ec1⟩ := pr2
      rw [hIL] at hRun
      dsimp only at hRun
      have hLen := evalInputsLoop_length mc1 al (decide (config.length ≠ 0)) inputs none
        (ins1, ec1) hIL
      exact (executeRest_length p true al config mc1 m' ins1 ec1 res hImpl hRun).trans hLen

/-- Witness for the amended C5 theorem: a row-preserving implementation on a
one-row input returns one row. -/
theorem c5_row_alignment_amended_witness :
    execute (⟨fun rows _ _ => .ok rows, none, none, none⟩ : PluginDescriptor) [] none
        [[("x", .num (jsInt 1))]] = .ok [[("x", .num (jsInt 1))]] ∧
    ([[("x", JsVal.num (jsInt 1))]] : List Rec).length = [[("x", JsVal.num (jsInt 1))]].length :=
  ⟨by decide,
   c5_row_alignment_amended (⟨fun rows _ _ => .ok rows, none, none, none⟩ : PluginDescriptor)
     [] none [[("x", .num (jsInt 1))]] [[("x", .num (jsInt 1))]]
     (fun rows cfg m out h => by cases h; rfl)
     (by decide)⟩

/-- Claim C9 (confirmed): for a descriptor with no allow-list whose config
mapping and config validation succeed and whose implementation returns the
empty list on empty input (part of being a valid descriptor), `execute([])`
returns `[]`. -/
theorem c9_execute_empty_no_allowlist
    (p : PluginDescriptor) (config : Rec) (mapping0 : Option Mapping)
    (mc : Rec) (m' : Option Mapping)
    (hAl : p.allowArithmeticExpressions = none)
    (hMap : mapConfigFlat config mapping0 = .ok (mc, m'))
    (hCv : ∀ f, p.configValidation = some f → ∃ sc, f mc = .ok sc)
    (hImpl : ∀ cfg m, p.implementation [] cfg m = .ok []) :
    execute p config mapping0 [] = .ok [] := by
  unfold execute
  simp only [bind, Except.bind, hAl, hMap, Option.isSome_none, Bool.false_eq_true,
    if_false, Option.getD_none]
  unfold executeRest
  simp only [bind, Except.bind]
  cases hcv : p.configValidation with
  | none =>
      simp only [configValidationStage, hcv, pure, Except.pure]
      simp only [evaluatedConfigStage, Bool.false_and, Bool.false_eq_true, if_false,
        pure, Except.pure, expressionCleanedStage, safeInputsStage, List.enum_nil,
        mapEM, List.zip_nil_right, List.map_nil, hImpl, outputParamStage,
        finalizeRows]
  | some f =>
      obtain ⟨sc, hsc⟩ := hCv f hcv
      simp only [configValidationStage, hcv, hsc]
      simp only [evaluatedConfigStage, Bool.false_and, Bool.false_eq_true, if_false,
        pure, Except.pure, expressionCleanedStage, safeInputsStage, List.enum_nil,
        mapEM, List.zip_nil_right, List.map_nil, hImpl, outputParamStage,
        finalizeRows]
      rw [hsc]

/-- Witness for the C9 theorem at a concrete descriptor (no validators, no
mapping, empty config, implementation returning its rows): `execute([])`
returns `[]`. -/
theorem c9_execute_empty_no_allowlist_witness :
    mapConfigFlat [] none = .ok ([], none) ∧
    execute (⟨fun _ _ _ => .ok [], none, none, none⟩ : PluginDescriptor) [] none [] =
      .ok [] :=
  ⟨by decide,
   c9_execute_empty_no_allowlist (⟨fun _ _ _ => .ok [], none, none, none⟩ : PluginDescriptor)
     [] none [] none rfl (by decide) (fun f h => nomatch h) (fun cfg m => rfl)⟩

/-- Helper: with arithmetic enabled and no input rows, the pipeline stages
from config validation onwards never return normally when the
implementation yields no output rows — the free-output-field computation
reads row 0 of the outputs. -/
theorem executeRest_empty_inputs_errors
    (p : PluginDescriptor) (al : List String) (config mc : Rec) (m' : Option Mapping)
    (ec1 : Option Rec)
    (hImpl : ∀ cfg m, p.implementation [] cfg m = .ok []) :
    ∃ e, executeRest p true al config mc m' [] ec1 = .error e := by
  unfold executeRest
  simp only [bind, Except.bind] at *
  cases hSC : configValidationStage p config mc with
  | error e => exact ⟨e, rfl⟩
  | ok sc =>
  dsimp only
  cases hEC : evaluatedConfigStage true config sc mc al [] ec1 with
  | error e => exact ⟨e, rfl⟩
  | ok ec =>
  dsimp only
  cases hXC : expressionCleanedStage true sc with
  | error e => exact ⟨e, rfl⟩
  | ok ecc =>
  dsimp only
  simp only [safeInputsStage, List.enum_nil, mapEM, List.zip_nil_right, List.map_nil,
    hImpl, outputParamStage, computeOutputParam, if_true]
  exact ⟨.typeError, rfl⟩

/-- Claim C10 (confirmed): a descriptor that declares
`allowArithmeticExpressions` — even as an empty list, which is truthy —
whose implementation returns the empty list for empty input makes
`execute([])` end in an error instead of returning: on the success path the
pipeline unconditionally reads row 0 of the implementation's outputs (and
row 0 of the inputs) to identify the free output field, raising a
`TypeError`, and any earlier failure is an error as well. -/
theorem c10_execute_empty_with_allowlist_errors
    (p : PluginDescriptor) (config : Rec) (mapping0 : Option Mapping) (al : List String)
    (hAl : p.allowArithmeticExpressions = some al)
    (hImpl : ∀ cfg m, p.implementation [] cfg m = .ok []) :
    ∃ e, execute p config mapping0 [] = .error e := by
  unfold execute
  simp only [bind, Except.bind, hAl, Option.isSome_some, Option.getD_some, if_true]
  cases hM : mapConfigFlat config mapping0 with
  | error e => exact ⟨e, rfl⟩
  | ok pr =>
  obtain ⟨mc0, m'⟩ := pr
  dsimp only
  cases hmc : mapEM (fun (kv : String × JsVal) =>
      (evaluateSimpleArithmeticExpression kv.2).map (fun v => (kv.1, v))) mc0 with
  | error e => exact ⟨e, rfl⟩
  | ok mc1 =>
  dsimp only
  simp only [evalInputsLoop]
  exact executeRest_empty_inputs_errors p al config mc1 m' none hImpl

/-- Witness for the C10 theorem at a concrete descriptor (empty allow-list,
no validators, empty config, implementation returning `[]`): `execute([])`
raises the `TypeError`. -/
theorem c10_execute_empty_with_allowlist_errors_witness :
    execute (⟨fun _ _ _ => .ok [], none, none, some []⟩ : PluginDescriptor) [] none [] =
      .error .typeError := by
  obtain ⟨e, he⟩ := c10_execute_empty_with_allowlist_errors
    (⟨fun _ _ _ => .ok [], none, none, some []⟩ : PluginDescriptor) [] none [] rfl
    (fun cfg m => rfl)
  decide
